import Mathlib

/-!
Verification of the gemini-chat-lib conversation/tool-execution core.

The development shallowly embeds the repository's TypeScript sources:

* `src/utils/sliding-window.ts` — `estimateTokenCount`, `truncateConversation`,
  `truncateConversationIfNeeded` (JS numbers are modelled as `ℚ`, array copies
  are the identity on pure lists);
* `src/conversation/message-history.ts` — the `ChatHistory` class (auto-truncating
  variant), with `Date.now()` supplied as an explicit `now` argument;
* `src/utils/tool-execution-manager.ts` — `executeTool`,
  `processFunctionCallSequence` and `executeToolsSequentially`; the Gemini model
  is replaced by an explicit script (`List ModelResponse`) consumed one response
  per `generateContent` call, and asynchronous callbacks are modelled as pure
  functions.  Ghost fields (`callLog`, `ranAction`) record, without influencing
  control flow, when a model request is issued and whether a tool action ran.
  An exhausted response script is modelled like a transport error (the code
  path that catches a rejected `generateContent` and returns `false`).
  Literal Japanese messages from the source are kept, with the decorative
  quotes around interpolated names elided.
-/

/-- One content block of a chat message (`ChatContent` in `conversation/types.ts`).
Tool parameters (`Record<string, any>`) are modelled as association lists of
strings, tool responses as `ToolResult`. -/
inductive ChatContent where
  | text (t : String)
  | image (url : String)
  | function_call (name : String) (args : List (String × String))
  | function_response (name : String) (content : String) (error : Option String)
deriving DecidableEq, Repr

/-- A message's `content` field: a plain string or a list of blocks. -/
inductive MsgContent where
  | str (s : String)
  | blocks (l : List ChatContent)
deriving DecidableEq, Repr

/-- `ChatMessage` from `conversation/types.ts`: role, content, optional timestamp. -/
structure ChatMessage where
  role : String
  content : MsgContent
  ts : Option Nat
deriving DecidableEq, Repr

/-- `TOKEN_BUFFER_PERCENTAGE` from `sliding-window.ts`. -/
def TOKEN_BUFFER_PERCENTAGE : ℚ := 1 / 10

/-- `estimateTokenCount` from `sliding-window.ts`: `Math.ceil(content.length)`,
which on a natural number is the length itself. -/
def estimateTokenCount (content : String) : Nat :=
  content.length

/-- `rawMessagesToRemove` in `truncateConversation`:
`Math.floor((messages.length - 1) * fracToRemove)` for a list of length `n`. -/
def rawToRemove (n : Nat) (fracToRemove : ℚ) : Nat :=
  Int.toNat ⌊((n - 1 : Nat) : ℚ) * fracToRemove⌋

/-- `messagesToRemove` in `truncateConversation`: the raw count rounded down to
the nearest even number (`raw - raw % 2`). -/
def evenToRemove (n : Nat) (fracToRemove : ℚ) : Nat :=
  rawToRemove n fracToRemove - rawToRemove n fracToRemove % 2

/-- `truncateConversation` from `sliding-window.ts`.  Keeps the first message,
drops the `messagesToRemove` entries right after it.  `[...messages]` copies are
the identity on pure lists. -/
def truncateConversation (messages : List ChatMessage) (fracToRemove : ℚ) :
    List ChatMessage :=
  if messages.length ≤ 1 ∨ fracToRemove ≤ 0 then
    messages
  else if evenToRemove messages.length fracToRemove = 0 then
    messages
  else
    messages.take 1 ++ messages.drop (evenToRemove messages.length fracToRemove + 1)

/-- The token total computed by `truncateConversationIfNeeded`'s `forEach`:
only messages whose `content` is a plain string contribute. -/
def totalTokenEstimate (messages : List ChatMessage) : Nat :=
  (messages.map fun msg =>
    match msg.content with
    | .str s => estimateTokenCount s
    | .blocks _ => 0).sum

/-- `truncateConversationIfNeeded` from `sliding-window.ts`. -/
def truncateConversationIfNeeded (messages : List ChatMessage)
    (modelMaxTokens contextWindow : ℚ) : List ChatMessage :=
  if messages.length ≤ 1 then
    messages
  else if (totalTokenEstimate messages : ℚ) >
      contextWindow * (1 - TOKEN_BUFFER_PERCENTAGE) - modelMaxTokens * (2 / 10) then
    truncateConversation messages (1 / 2)
  else
    messages

/-- The `ChatHistory` class of `conversation/message-history.ts`
(auto-truncating snapshot): the stored message array plus the two model limits. -/
structure ChatHistory where
  messages : List ChatMessage
  modelMaxTokens : ℚ
  contextWindow : ℚ
deriving DecidableEq, Repr

/-- The timestamp assignment at the top of `ChatHistory.addMessage`:
`if (!message.ts) message.ts = Date.now()`.  JS truthiness makes both a missing
and a zero timestamp trigger the assignment. -/
def tsFilled (m : ChatMessage) (now : Nat) : ChatMessage :=
  { m with
    ts :=
      match m.ts with
      | none => some now
      | some t => if t = 0 then some now else some t }

/-- `ChatHistory.autoTruncateIfNeeded`: runs the sliding-window check and
replaces the stored array only when the length changed. -/
def autoTruncateIfNeeded (msgs : List ChatMessage) (modelMaxTokens contextWindow : ℚ) :
    List ChatMessage :=
  if msgs.length ≤ 1 then
    msgs
  else if (truncateConversationIfNeeded msgs modelMaxTokens contextWindow).length ≠ msgs.length then
    truncateConversationIfNeeded msgs modelMaxTokens contextWindow
  else
    msgs

/-- `ChatHistory.addMessage`: fill the timestamp, push, then auto-truncate. -/
def ChatHistory.addMessage (h : ChatHistory) (m : ChatMessage) (now : Nat) :
    ChatHistory :=
  { h with
    messages :=
      autoTruncateIfNeeded (h.messages ++ [tsFilled m now]) h.modelMaxTokens h.contextWindow }

/-- Tool parameters (`ToolParams`, a `Record<string, any>`), modelled as an
association list of strings. -/
def ToolParams : Type := List (String × String)
deriving DecidableEq, Repr

/-- `ToolResult` from `function-tools.ts`: `content` plus optional `error`. -/
structure ToolResult where
  content : String
  error : Option String
deriving DecidableEq, Repr

/-- Outcome of awaiting a tool's `execute` (or a completion callback): the
promise resolves to a value or rejects with an error message. -/
inductive ExecOutcome where
  | ok (result : ToolResult)
  | exn (msg : String)

/-- `FunctionTool` from `function-tools.ts`; the declarative parameter schema is
not consumed by the verified control flow and is omitted. -/
structure FunctionTool where
  name : String
  description : String
  execute : ToolParams → ExecOutcome

/-- The configuration of a `ToolExecutionManager` relevant to tool dispatch:
its tool list, the approval set and the two optional callbacks.  The approval
callback resolves to a `Bool`; the execution-completed callback either resolves
(`none`) or rejects with a message (`some msg`). -/
structure ToolExecConfig where
  tools : List FunctionTool
  toolsRequiringApproval : List String
  onToolApprovalRequired : Option (String → ToolParams → Bool)
  onToolExecutionCompleted : Option (String → ToolParams → ToolResult → Option String)

/-- `maxConsecutiveMistakes` field initialiser. -/
def maxConsecutiveMistakes : Nat := 3

/-- `getToolByName`: `this.tools.find(tool => tool.name === toolName)`. -/
def getToolByName (tools : List FunctionTool) (toolName : String) :
    Option FunctionTool :=
  tools.find? fun tool => tool.name == toolName

/-- The guard of the approval branch in `executeTool`:
`this.toolsRequiringApproval.includes(toolName) && this.onToolApprovalRequired`
followed by `!approved`. -/
def approvalDenied (cfg : ToolExecConfig) (toolName : String) (params : ToolParams) :
    Bool :=
  match cfg.onToolApprovalRequired with
  | some approve => cfg.toolsRequiringApproval.contains toolName && !(approve toolName params)
  | none => false

/-- Whether the optional `onToolExecutionCompleted` callback rejects
(`some msg`) when awaited after a successful execution. -/
def execCompletedThrow (cfg : ToolExecConfig) (toolName : String)
    (params : ToolParams) (result : ToolResult) : Option String :=
  match cfg.onToolExecutionCompleted with
  | some callback => callback toolName params result
  | none => none

/-- Output of `executeTool`: the returned `ToolResult`, the value of
`consecutiveMistakeCount` after the call, and a ghost flag recording whether
the tool's `execute` action was actually awaited. -/
structure ExecOut where
  result : ToolResult
  count : Nat
  ranAction : Bool
deriving DecidableEq, Repr

/-- `ToolExecutionManager.executeTool`.  `count` is the entry value of
`this.consecutiveMistakeCount`.  The `try/catch` around the body catches a
rejection of `tool.execute` or of the completion callback, increments the
mistake counter and returns an error result; the counter is reset only when
`attempt_completion` itself reaches the success path. -/
def executeTool (cfg : ToolExecConfig) (count : Nat) (toolName : String)
    (params : ToolParams) : ExecOut :=
  match getToolByName cfg.tools toolName with
  | none =>
    { result := { content := "", error := some ("ツール " ++ toolName ++ " が見つかりません") }
      count := count, ranAction := false }
  | some tool =>
    if approvalDenied cfg toolName params then
      { result := { content := "ユーザーがツール " ++ toolName ++ " の実行を拒否しました"
                    error := none }
        count := count, ranAction := false }
    else
      match tool.execute params with
      | .exn msg =>
        { result := { content := "", error := some ("ツール実行エラー: " ++ msg) }
          count := count + 1, ranAction := true }
      | .ok result =>
        match execCompletedThrow cfg toolName params result with
        | some msg =>
          { result := { content := "", error := some ("ツール実行エラー: " ++ msg) }
            count := count + 1, ranAction := true }
        | none =>
          if toolName = "attempt_completion" then
            { result := result, count := 0, ranAction := true }
          else
            { result := result, count := count, ranAction := true }

/-- A structured function call extracted from a model response. -/
structure FunctionCall where
  name : String
  args : ToolParams
deriving DecidableEq, Repr

/-- One behaviour of `model.generateContent`: it resolves with a response whose
parts yield a (possibly empty) list of function calls plus a textual body, or
it rejects (transport error). -/
inductive ModelResponse where
  | reply (functionCalls : List FunctionCall) (text : String)
  | exn (msg : String)
deriving DecidableEq, Repr

/-- One part of the `contents` request array sent to the Gemini API. -/
inductive GPart where
  | text (t : String)
  | functionCall (name : String) (args : ToolParams)
  | functionResponse (name : String) (content : String) (error : Option String)
deriving DecidableEq, Repr

/-- One entry of the `contents` request array: a role plus parts. -/
structure GContent where
  role : String
  parts : List GPart
deriving DecidableEq, Repr

/-- The mutable state of a `ToolExecutionManager` during a sequential run:
`consecutiveMistakeCount`, the `aborted` flag and the shared `ChatHistory`.
`callLog` is a ghost trace: every time the engine issues a model request it
records the value of `consecutiveMistakeCount` at that moment. -/
structure EngState where
  consecutiveMistakeCount : Nat
  aborted : Bool
  history : ChatHistory
  callLog : List Nat
deriving DecidableEq, Repr

/-- The assistant turn recording a function call, as appended by
`processFunctionCallSequence`. -/
def functionCallTurn (toolName : String) (params : ToolParams) (now : Nat) :
    ChatMessage :=
  { role := "assistant", content := .blocks [.function_call toolName params], ts := some now }

/-- The user turn recording a function response, as appended by
`processFunctionCallSequence` (and by the success branch of
`executeToolsSequentially`). -/
def functionResponseTurn (toolName : String) (result : ToolResult) (now : Nat) :
    ChatMessage :=
  { role := "user"
    content := .blocks [.function_response toolName result.content result.error]
    ts := some now }

/-- Result of one iteration of `processFunctionCallSequence` up to (but not
including) the `model.generateContent` call: either an early return with the
method's boolean result, or the state and request contents in hand when the
next model request is issued.  In the latter case the ghost `callLog` of the
carried state has already recorded the request. -/
inductive PreCall where
  | stop (ret : Bool)
  | call (st : EngState) (contents : List GContent)
deriving DecidableEq, Repr

/-- The body of one `processFunctionCallSequence` iteration before the next
`generateContent` call: the `aborted` and mistake-budget guards, the
`attempt_completion` interception, the contents pushes, the tool execution,
the two history appends and the counter update. -/
def stepBeforeModelCall (cfg : ToolExecConfig) (now : Nat) (st : EngState)
    (contents : List GContent) (fc : FunctionCall) : PreCall :=
  if st.aborted then
    .stop true
  else if maxConsecutiveMistakes ≤ st.consecutiveMistakeCount then
    .stop true
  else if fc.name = "attempt_completion" then
    .stop true
  else
    let contents1 := contents ++ [{ role := "model", parts := [.functionCall fc.name fc.args] }]
    let out := executeTool cfg st.consecutiveMistakeCount fc.name fc.args
    let hist1 := st.history.addMessage (functionCallTurn fc.name fc.args now) now
    let contents2 := contents1 ++
      [{ role := "user", parts := [.functionResponse fc.name out.result.content out.result.error] }]
    let hist2 := hist1.addMessage (functionResponseTurn fc.name out.result now) now
    let newCount := if out.result.error.isSome then out.count + 1 else 0
    .call
      { consecutiveMistakeCount := newCount
        aborted := st.aborted
        history := hist2
        callLog := st.callLog ++ [newCount] }
      contents2

/-- `ToolExecutionManager.processFunctionCallSequence`, driven by a response
script: each consumed script entry is one `generateContent` call.  Returns the
method's boolean result, the final manager state and the final request
contents. -/
def processFunctionCallSequence (cfg : ToolExecConfig) (now : Nat) :
    List ModelResponse → EngState → List GContent → FunctionCall →
    Bool × EngState × List GContent
  | oracle, st, contents, fc =>
    match stepBeforeModelCall cfg now st contents fc with
    | .stop ret => (ret, st, contents)
    | .call st1 contents1 =>
      match oracle with
      | [] => (false, st1, contents1)
      | resp :: rest =>
        match resp with
        | .exn _ => (false, st1, contents1)
        | .reply functionCalls text =>
          match functionCalls with
          | [] =>
            (false,
             { st1 with
                history := st1.history.addMessage
                  { role := "assistant", content := .str text, ts := some now } now },
             contents1)
          | next :: _ => processFunctionCallSequence cfg now rest st1 contents1 next

/-- The plain-text user turn appended by `executeToolsSequentially` when a tool
returns an error. -/
def toolFailedTurn (toolName : String) (err : String) (now : Nat) : ChatMessage :=
  { role := "user"
    content := .str ("ツール " ++ toolName ++ " の実行中にエラーが発生しました: " ++ err)
    ts := some now }

/-- Whether a content block is a `function_call` block
(`item.type === 'function_call'`). -/
def ChatContent.isFunctionCallBlock : ChatContent → Bool
  | .function_call _ _ => true
  | _ => false

/-- `ToolExecutionManager.executeToolsSequentially`, driven by a script of
`generateResponse` replies.  Each consumed script entry is one call of the
caller-supplied `generateResponse`; the ghost `callLog` records the mistake
count at each such call.  An exhausted script models a rejecting generator. -/
def executeToolsSequentially (cfg : ToolExecConfig) (now : Nat) :
    List ChatMessage → EngState → ChatMessage → Bool × EngState
  | oracle, st, functionCallMessage =>
    if st.aborted then
      (true, st)
    else if maxConsecutiveMistakes ≤ st.consecutiveMistakeCount then
      (true, st)
    else
      match functionCallMessage.content with
      | .str _ => (true, st)
      | .blocks items =>
        match items.find? ChatContent.isFunctionCallBlock with
        | some (.function_call fcName fcArgs) =>
          if fcName = "" then
            (true, st)
          else if fcName = "attempt_completion" then
            (true, st)
          else
            let out := executeTool cfg st.consecutiveMistakeCount fcName fcArgs
            match out.result.error with
            | some err =>
              (false,
               { st with
                  consecutiveMistakeCount := out.count + 1
                  history := st.history.addMessage (toolFailedTurn fcName err now) now })
            | none =>
              let st1 :=
                { st with
                    consecutiveMistakeCount := 0
                    history := st.history.addMessage
                      (functionResponseTurn fcName out.result now) now }
              match oracle with
              | [] => (false, st1)
              | resp :: rest =>
                let st2 :=
                  { st1 with
                      history := st1.history.addMessage resp now
                      callLog := st1.callLog ++ [st1.consecutiveMistakeCount] }
                executeToolsSequentially cfg now rest st2 resp
        | _ => (true, st)

/-- A minimal JS heap of message arrays, used to state aliasing properties:
references are indices into the allocation list. -/
structure Heap where
  arrays : List (List ChatMessage)
deriving DecidableEq, Repr

/-- Dereference an array reference. -/
def Heap.read (h : Heap) (r : Nat) : List ChatMessage :=
  h.arrays.getD r []

/-- Mutate the array behind a reference in place. -/
def Heap.write (h : Heap) (r : Nat) (v : List ChatMessage) : Heap :=
  { arrays := h.arrays.set r v }

/-- Heap-level model of `ChatHistory.getMessages`: `return [...this.messages]`
allocates a fresh array holding a copy of the stored messages and returns its
reference together with the new heap.  `storeRef` is the reference held in the
`ChatHistory` instance's `messages` field. -/
def getMessagesRef (h : Heap) (storeRef : Nat) : Nat × Heap :=
  (h.arrays.length, { arrays := h.arrays ++ [h.read storeRef] })

/-- A tool whose `execute` resolves with an error result, standing in for the
`read_file` tool failing with a not-found error. -/
def failingTool : FunctionTool :=
  { name := "read_file"
    description := "fails"
    execute := fun _ => .ok { content := "", error := some "not found" } }

/-- A tool whose `execute` rejects (throws). -/
def throwingTool : FunctionTool :=
  { name := "throwing_tool"
    description := "throws"
    execute := fun _ => .exn "boom" }

/-- A registered completion tool whose `execute` resolves successfully. -/
def completionTool : FunctionTool :=
  { name := "attempt_completion"
    description := "completes"
    execute := fun _ => .ok { content := "done", error := none } }

/-- A manager configuration holding the three sample tools, with no approval
set and no callbacks. -/
def sampleCfg : ToolExecConfig :=
  { tools := [failingTool, throwingTool, completionTool]
    toolsRequiringApproval := []
    onToolApprovalRequired := none
    onToolExecutionCompleted := none }

/-- A fresh engine state: zero mistakes, not aborted, empty history with the
default model limits of `ChatHistory`. -/
def freshState : EngState :=
  { consecutiveMistakeCount := 0
    aborted := false
    history := { messages := [], modelMaxTokens := 8192, contextWindow := 131072 }
    callLog := [] }

/-- The model call requesting the failing tool. -/
def failCall : FunctionCall := { name := "read_file", args := [("path", "x.json")] }

/-- A response script in which the model keeps requesting the failing tool. -/
def failScript : List ModelResponse :=
  [.reply [failCall] "", .reply [failCall] "", .reply [failCall] ""]

/-- A response script whose single reply names the completion tool. -/
def completionScript : List ModelResponse :=
  [.reply [{ name := "attempt_completion", args := [("result", "Done")] }] ""]

/-- An assistant message carrying a function-call block for the failing tool,
as handed to `executeToolsSequentially`. -/
def failCallMessage : ChatMessage :=
  { role := "assistant"
    content := .blocks [.function_call "read_file" [("path", "x.json")]]
    ts := some 1 }

/-- A generator script for `executeToolsSequentially`. -/
def seqScript : List ChatMessage :=
  [{ role := "assistant", content := .str "next step", ts := some 2 }]

/-- A 21-message conversation: one system turn plus 20 alternating
user/assistant turns. -/
def msgs21 : List ChatMessage :=
  (List.range 21).map fun i =>
    { role := if i = 0 then "system" else if i % 2 = 1 then "user" else "assistant"
      content := .str "turn"
      ts := some i }

/-- A sample message for heap witnesses. -/
def sampleStoredMessage : ChatMessage :=
  { role := "user", content := .str "hello", ts := some 5 }

/-- A one-array heap whose reference 0 is a ChatHistory's stored array. -/
def sampleHeap : Heap :=
  { arrays := [[sampleStoredMessage]] }

/-- The heap after a caller structurally mutates, in place, the array returned
by `getMessagesRef`: the fresh array is overwritten with an arbitrary function
of its content. -/
def mutatedHeap (h : Heap) (storeRef : Nat) (mutate : List ChatMessage → List ChatMessage) :
    Heap :=
  ((getMessagesRef h storeRef).2).write (getMessagesRef h storeRef).1
    (mutate (((getMessagesRef h storeRef).2).read (getMessagesRef h storeRef).1))

/-- An engine state whose failure budget is already exhausted. -/
def budgetState : EngState :=
  { freshState with consecutiveMistakeCount := 3 }

/-- A configuration in which `read_file` requires approval and the approval
callback always denies. -/
def denyCfg : ToolExecConfig :=
  { tools := [failingTool]
    toolsRequiringApproval := ["read_file"]
    onToolApprovalRequired := some fun _ _ => false
    onToolExecutionCompleted := none }

/-- A two-message conversation made of block-content turns only (its token
estimate is zero). -/
def msgsBlocks : List ChatMessage :=
  [functionCallTurn "read_file" [("path", "x.json")] 1,
   functionResponseTurn "read_file" { content := "", error := some "not found" } 2]

/-- A small non-empty history used in witnesses. -/
def sampleHistory : ChatHistory :=
  { messages := [{ role := "system", content := .str "frame", ts := some 1 }]
    modelMaxTokens := 8192
    contextWindow := 131072 }

/-! ### Helper lemmas -/

theorem truncateConversation_head (l : List ChatMessage) (f : ℚ) :
    (truncateConversation l f).head? = l.head? := by
  unfold truncateConversation
  split
  · rfl
  · split
    · rfl
    · rename_i h1 h2
      match l with
      | [] => simp at h1
      | a :: t => rfl

theorem two_mul_rawToRemove_le (n : Nat) :
    2 * rawToRemove n (1 / 2) ≤ n - 1 := by
  unfold rawToRemove
  have h0 : (0 : ℚ) ≤ ((n - 1 : Nat) : ℚ) * (1 / 2) := by positivity
  have hle : ((⌊((n - 1 : Nat) : ℚ) * (1 / 2)⌋ : ℤ) : ℚ) ≤ ((n - 1 : Nat) : ℚ) * (1 / 2) :=
    Int.floor_le _
  have h2 : 2 * ⌊((n - 1 : Nat) : ℚ) * (1 / 2)⌋ ≤ ((n - 1 : Nat) : ℤ) := by
    have hq : ((2 * ⌊((n - 1 : Nat) : ℚ) * (1 / 2)⌋ : ℤ) : ℚ) ≤ ((n - 1 : Nat) : ℚ) := by
      push_cast
      linarith
    exact_mod_cast hq
  omega

theorem getLast?_drop_of_lt {α : Type} (l : List α) (k : Nat) (h : k < l.length) :
    (l.drop k).getLast? = l.getLast? := by
  have hne : l.drop k ≠ [] := by
    intro hnil
    have := List.drop_eq_nil_iff.mp hnil
    omega
  conv_rhs => rw [← List.take_append_drop k l]
  rw [List.getLast?_append_of_ne_nil _ hne]

theorem truncateConversation_half_getLast (l : List ChatMessage) :
    (truncateConversation l (1 / 2)).getLast? = l.getLast? := by
  unfold truncateConversation
  split
  · rfl
  split
  · rfl
  rename_i hcond hk
  push_neg at hcond
  obtain ⟨hlen, -⟩ := hcond
  have hk1 : 1 ≤ evenToRemove l.length (1 / 2) := Nat.one_le_iff_ne_zero.mpr hk
  have hraw : 2 * rawToRemove l.length (1 / 2) ≤ l.length - 1 := two_mul_rawToRemove_le _
  have hkraw : evenToRemove l.length (1 / 2) ≤ rawToRemove l.length (1 / 2) := Nat.sub_le _ _
  have hlt : evenToRemove l.length (1 / 2) + 1 < l.length := by omega
  have hne : l.drop (evenToRemove l.length (1 / 2) + 1) ≠ [] := by
    intro hnil
    have := List.drop_eq_nil_iff.mp hnil
    omega
  rw [List.getLast?_append_of_ne_nil _ hne]
  exact getLast?_drop_of_lt l _ hlt

theorem truncateConversationIfNeeded_getLast (l : List ChatMessage) (maxT ctxW : ℚ) :
    (truncateConversationIfNeeded l maxT ctxW).getLast? = l.getLast? := by
  unfold truncateConversationIfNeeded
  split
  · rfl
  split
  · exact truncateConversation_half_getLast l
  · rfl

theorem truncateConversationIfNeeded_head (l : List ChatMessage) (maxT ctxW : ℚ) :
    (truncateConversationIfNeeded l maxT ctxW).head? = l.head? := by
  unfold truncateConversationIfNeeded
  split
  · rfl
  split
  · exact truncateConversation_head l (1 / 2)
  · rfl

theorem autoTruncateIfNeeded_getLast (l : List ChatMessage) (maxT ctxW : ℚ) :
    (autoTruncateIfNeeded l maxT ctxW).getLast? = l.getLast? := by
  unfold autoTruncateIfNeeded
  split
  · rfl
  split
  · exact truncateConversationIfNeeded_getLast l maxT ctxW
  · rfl

theorem autoTruncateIfNeeded_head (l : List ChatMessage) (maxT ctxW : ℚ) :
    (autoTruncateIfNeeded l maxT ctxW).head? = l.head? := by
  unfold autoTruncateIfNeeded
  split
  · rfl
  split
  · exact truncateConversationIfNeeded_head l maxT ctxW
  · rfl

theorem addMessage_getLast (h : ChatHistory) (m : ChatMessage) (now : Nat) :
    (h.addMessage m now).messages.getLast? = some (tsFilled m now) := by
  unfold ChatHistory.addMessage
  rw [autoTruncateIfNeeded_getLast, List.getLast?_concat]

theorem addMessage_head (h : ChatHistory) (m : ChatMessage) (now : Nat)
    (hne : h.messages ≠ []) :
    (h.addMessage m now).messages.head? = h.messages.head? := by
  unfold ChatHistory.addMessage
  rw [autoTruncateIfNeeded_head, List.head?_append_of_ne_nil _ hne]

theorem tsFilled_some_now (r : String) (c : MsgContent) (now : Nat) :
    tsFilled { role := r, content := c, ts := some now } now =
      { role := r, content := c, ts := some now } := by
  by_cases h : now = 0 <;> simp [tsFilled, h]

/-! ### Claims about the sliding-window truncation (C2, C3, C7) -/

/-- C2: `truncateConversation` returns the input unchanged when
`messages.length ≤ 1` or `fractionToRemove ≤ 0`; otherwise it removes, right
after the first message, a block whose size is `floor((length-1)*fraction)`
rounded down to the nearest even number (returning the input when that size is
zero); and on a 21-message list with fraction `1/2` it keeps turn 0 plus the
last 10 turns. -/
theorem claim_C2 (messages : List ChatMessage) (f : ℚ) :
    ((messages.length ≤ 1 ∨ f ≤ 0) → truncateConversation messages f = messages)
    ∧ (1 < messages.length → 0 < f →
        ∃ toRemove : Nat,
          toRemove % 2 = 0
          ∧ toRemove ≤ rawToRemove messages.length f
          ∧ rawToRemove messages.length f < toRemove + 2
          ∧ truncateConversation messages f =
              (if toRemove = 0 then messages
               else messages.take 1 ++ messages.drop (toRemove + 1)))
    ∧ (messages.length = 21 →
        truncateConversation messages (1 / 2) = messages.take 1 ++ messages.drop 11) := by
  refine ⟨?_, ?_, ?_⟩
  · intro h
    unfold truncateConversation
    rw [if_pos h]
  · intro h1 h2
    refine ⟨evenToRemove messages.length f, ?_, ?_, ?_, ?_⟩
    · unfold evenToRemove
      omega
    · exact Nat.sub_le _ _
    · unfold evenToRemove
      have := Nat.mod_lt (rawToRemove messages.length f) (y := 2) (by omega)
      omega
    · unfold truncateConversation
      rw [if_neg (by push_neg; exact ⟨by omega, h2⟩)]
  · intro h21
    have hraw : rawToRemove messages.length (1 / 2) = 10 := by
      rw [h21]
      unfold rawToRemove
      have hf : ⌊((21 - 1 : Nat) : ℚ) * (1 / 2)⌋ = 10 := by norm_num
      rw [hf]
      rfl
    have hk : evenToRemove messages.length (1 / 2) = 10 := by
      unfold evenToRemove
      omega
    unfold truncateConversation
    rw [hk, h21]
    norm_num

/-- C2 witness: the theorem evaluated at concrete inputs. -/
theorem claim_C2_witness :
    truncateConversation [] (1 / 2) = []
    ∧ (∃ toRemove : Nat,
        toRemove % 2 = 0
        ∧ toRemove ≤ rawToRemove msgs21.length (1 / 2)
        ∧ rawToRemove msgs21.length (1 / 2) < toRemove + 2
        ∧ truncateConversation msgs21 (1 / 2) =
            (if toRemove = 0 then msgs21
             else msgs21.take 1 ++ msgs21.drop (toRemove + 1)))
    ∧ truncateConversation msgs21 (1 / 2) = msgs21.take 1 ++ msgs21.drop 11 :=
  ⟨(claim_C2 [] (1 / 2)).1 (Or.inl (by decide)),
   (claim_C2 msgs21 (1 / 2)).2.1 (by decide) (by norm_num),
   (claim_C2 msgs21 (1 / 2)).2.2 (by decide)⟩

/-- C3: `truncateConversationIfNeeded` is the identity on histories of at most
one message; otherwise it truncates with fraction `1/2` exactly when the token
total — summed only over plain-string messages, block-content messages
contributing nothing — exceeds `contextWindow * (1 - 0.1) - modelMaxTokens * 0.2`. -/
theorem claim_C3 (messages : List ChatMessage) (modelMaxTokens contextWindow : ℚ) :
    (messages.length ≤ 1 →
      truncateConversationIfNeeded messages modelMaxTokens contextWindow = messages)
    ∧ (((totalTokenEstimate messages : ℚ) >
          contextWindow * (1 - TOKEN_BUFFER_PERCENTAGE) - modelMaxTokens * (2 / 10) →
        1 < messages.length →
        truncateConversationIfNeeded messages modelMaxTokens contextWindow =
          truncateConversation messages (1 / 2))
      ∧ (¬ ((totalTokenEstimate messages : ℚ) >
          contextWindow * (1 - TOKEN_BUFFER_PERCENTAGE) - modelMaxTokens * (2 / 10)) →
        truncateConversationIfNeeded messages modelMaxTokens contextWindow = messages))
    ∧ (∀ m : ChatMessage, (∀ s, m.content ≠ .str s) →
        totalTokenEstimate (messages ++ [m]) = totalTokenEstimate messages) := by
  refine ⟨?_, ⟨?_, ?_⟩, ?_⟩
  · intro h
    unfold truncateConversationIfNeeded
    rw [if_pos h]
  · intro hover hlen
    unfold truncateConversationIfNeeded
    rw [if_neg (by omega), if_pos hover]
  · intro hunder
    unfold truncateConversationIfNeeded
    by_cases hlen : messages.length ≤ 1
    · rw [if_pos hlen]
    · rw [if_neg hlen, if_neg hunder]
  · intro m hm
    unfold totalTokenEstimate
    rw [List.map_append, List.sum_append]
    match hc : m.content with
    | .str s => exact absurd hc (hm s)
    | .blocks bl => simp [hc]

/-- C3 witness: the theorem evaluated at concrete inputs. -/
theorem claim_C3_witness :
    truncateConversationIfNeeded [] 8192 131072 = []
    ∧ truncateConversationIfNeeded msgsBlocks 8192 131072 = msgsBlocks
    ∧ totalTokenEstimate (msgsBlocks ++ [failCallMessage]) = totalTokenEstimate msgsBlocks :=
  ⟨(claim_C3 [] 8192 131072).1 (by decide),
   (claim_C3 msgsBlocks 8192 131072).2.1.2 (by
      have h0 : totalTokenEstimate msgsBlocks = 0 := rfl
      rw [h0]
      norm_num [TOKEN_BUFFER_PERCENTAGE]),
   (claim_C3 msgsBlocks 8192 131072).2.2 failCallMessage (by intro s h; cases h)⟩

/-- C7: truncation preserves the anchor — for non-empty input and
`fractionToRemove ∈ (0,1]` the first element is unchanged. -/
theorem claim_C7 (messages : List ChatMessage) (f : ℚ)
    (hne : messages ≠ []) (h0 : 0 < f) (h1 : f ≤ 1) :
    (truncateConversation messages f).head? = messages.head? :=
  truncateConversation_head messages f

/-- C7 witness. -/
theorem claim_C7_witness :
    (truncateConversation msgs21 (1 / 2)).head? = msgs21.head? :=
  claim_C7 msgs21 (1 / 2) (by decide) (by norm_num) (by norm_num)

/-! ### Claims about the conversation store (C8, C9) -/

/-- C8: `ChatHistory.addMessage` assigns a timestamp when the message has none,
appends the message, and runs the auto-truncation check; and when the stored
sequence is non-empty, the stored first message is unchanged by the whole call. -/
theorem claim_C8 (h : ChatHistory) (m : ChatMessage) (now : Nat) :
    (h.addMessage m now).messages =
      autoTruncateIfNeeded (h.messages ++ [tsFilled m now]) h.modelMaxTokens h.contextWindow
    ∧ ((tsFilled m now).ts).isSome = true
    ∧ (m.ts = none → (tsFilled m now).ts = some now)
    ∧ (h.messages ≠ [] → (h.addMessage m now).messages.head? = h.messages.head?) := by
  refine ⟨rfl, ?_, ?_, addMessage_head h m now⟩
  · simp only [tsFilled]
    rcases m.ts with _ | t
    · rfl
    · by_cases h0 : t = 0 <;> simp [h0]
  · intro h0
    simp [tsFilled, h0]

/-- C8 witness: appending a timestamp-less block message to a one-message
history keeps the first stored message. -/
theorem claim_C8_witness :
    (sampleHistory.addMessage
        { role := "user", content := .blocks [], ts := none } 9).messages.head? =
      sampleHistory.messages.head? :=
  (claim_C8 sampleHistory { role := "user", content := .blocks [], ts := none } 9).2.2.2
    (by decide)

theorem Heap.read_write_ne (h : Heap) (r1 r2 : Nat) (v : List ChatMessage)
    (hne : r1 ≠ r2) : (h.write r1 v).read r2 = h.read r2 := by
  unfold Heap.write Heap.read
  rw [List.getD_eq_getElem?_getD, List.getElem?_set_ne hne, ← List.getD_eq_getElem?_getD]

theorem Heap.read_alloc_old (l : List (List ChatMessage)) (v : List ChatMessage)
    (r : Nat) (hr : r < l.length) :
    Heap.read { arrays := l ++ [v] } r = Heap.read { arrays := l } r := by
  unfold Heap.read
  exact List.getD_append l [v] [] r hr

theorem Heap.read_alloc_self (l : List (List ChatMessage)) (v : List ChatMessage) :
    Heap.read { arrays := l ++ [v] } l.length = v := by
  unfold Heap.read
  rw [List.getD_eq_getElem?_getD, List.getElem?_append_right (le_refl _)]
  simp

/-- C9: `getMessages` returns a defensive copy — the returned array is a fresh
reference distinct from the stored one, structurally mutating it leaves the
stored sequence unchanged, and a subsequent `getMessages` still returns the
original stored sequence. -/
theorem claim_C9 (h : Heap) (storeRef : Nat) (mutate : List ChatMessage → List ChatMessage)
    (hvalid : storeRef < h.arrays.length) :
    (getMessagesRef h storeRef).1 ≠ storeRef
    ∧ (mutatedHeap h storeRef mutate).read storeRef = h.read storeRef
    ∧ ((getMessagesRef (mutatedHeap h storeRef mutate) storeRef).2).read
        ((getMessagesRef (mutatedHeap h storeRef mutate) storeRef).1) = h.read storeRef := by
  have hbase : (mutatedHeap h storeRef mutate).read storeRef = h.read storeRef := by
    unfold mutatedHeap getMessagesRef
    rw [Heap.read_write_ne _ _ _ _ (by omega)]
    exact Heap.read_alloc_old h.arrays _ storeRef hvalid
  refine ⟨by simp [getMessagesRef]; omega, hbase, ?_⟩
  unfold getMessagesRef
  rw [Heap.read_alloc_self]
  exact hbase

/-- C9 witness: on a concrete one-array heap, emptying the returned copy leaves
the stored message array intact. -/
theorem claim_C9_witness :
    (getMessagesRef sampleHeap 0).1 ≠ 0
    ∧ (mutatedHeap sampleHeap 0 (fun _ => [])).read 0 = sampleHeap.read 0
    ∧ ((getMessagesRef (mutatedHeap sampleHeap 0 (fun _ => [])) 0).2).read
        ((getMessagesRef (mutatedHeap sampleHeap 0 (fun _ => [])) 0).1) = sampleHeap.read 0 :=
  claim_C9 sampleHeap 0 (fun _ => []) (by decide)

/-! ### Claims about the tool-execution engine (C1, C4, C5, C6, C10) -/

/-- C6: for a registered tool in the requires-approval set, a denying approval
callback makes `executeTool` return the declined-message result with no error,
without running the tool's action, and with the mistake counter unchanged. -/
theorem claim_C6 (cfg : ToolExecConfig) (count : Nat) (toolName : String)
    (params : ToolParams) (tool : FunctionTool) (approve : String → ToolParams → Bool)
    (hfind : getToolByName cfg.tools toolName = some tool)
    (hcb : cfg.onToolApprovalRequired = some approve)
    (hmem : cfg.toolsRequiringApproval.contains toolName = true)
    (hdeny : approve toolName params = false) :
    executeTool cfg count toolName params =
      { result := { content := "ユーザーがツール " ++ toolName ++ " の実行を拒否しました"
                    error := none }
        count := count
        ranAction := false } := by
  have hden : approvalDenied cfg toolName params = true := by
    unfold approvalDenied
    rw [hcb]
    show (cfg.toolsRequiringApproval.contains toolName && !(approve toolName params)) = true
    rw [hmem, hdeny]
    rfl
  unfold executeTool
  rw [hfind]
  simp [hden]

/-- C6 witness: the denying configuration at concrete inputs. -/
theorem claim_C6_witness :
    (executeTool denyCfg 2 "read_file" []).result.error = none
    ∧ (executeTool denyCfg 2 "read_file" []).count = 2
    ∧ (executeTool denyCfg 2 "read_file" []).ranAction = false := by
  rw [claim_C6 denyCfg 2 "read_file" [] failingTool (fun _ _ => false) rfl rfl (by decide) rfl]
  exact ⟨rfl, rfl, rfl⟩

/-- C10: when a named tool exists, is not blocked by approval, and its action
throws, the iteration increments the mistake counter twice — once in
`executeTool`'s catch block and once at the caller's error check — so the count
carried into the next model request is the entry count plus two. -/
theorem claim_C10 (cfg : ToolExecConfig) (now : Nat) (st : EngState)
    (contents : List GContent) (fc : FunctionCall) (tool : FunctionTool) (msg : String)
    (habort : st.aborted = false)
    (hbudget : st.consecutiveMistakeCount < maxConsecutiveMistakes)
    (hname : fc.name ≠ "attempt_completion")
    (hfind : getToolByName cfg.tools fc.name = some tool)
    (hdeny : approvalDenied cfg fc.name fc.args = false)
    (hexn : tool.execute fc.args = .exn msg) :
    (executeTool cfg st.consecutiveMistakeCount fc.name fc.args).count =
        st.consecutiveMistakeCount + 1
    ∧ ∃ st1 contents1,
        stepBeforeModelCall cfg now st contents fc = .call st1 contents1
        ∧ st1.consecutiveMistakeCount = st.consecutiveMistakeCount + 2 := by
  have hexec : executeTool cfg st.consecutiveMistakeCount fc.name fc.args =
      { result := { content := "", error := some ("ツール実行エラー: " ++ msg) }
        count := st.consecutiveMistakeCount + 1
        ranAction := true } := by
    unfold executeTool
    rw [hfind]
    simp [hdeny, hexn]
  refine ⟨by rw [hexec], ?_⟩
  unfold stepBeforeModelCall
  rw [if_neg (by simp [habort]), if_neg (by omega), if_neg hname]
  refine ⟨_, _, rfl, ?_⟩
  simp [hexec]

/-- C10 witness: the throwing tool at concrete inputs. -/
theorem claim_C10_witness :
    (executeTool sampleCfg 0 "throwing_tool" []).count = 0 + 1
    ∧ ∃ st1 contents1,
        stepBeforeModelCall sampleCfg 7 freshState [] { name := "throwing_tool", args := [] } =
          .call st1 contents1
        ∧ st1.consecutiveMistakeCount = 0 + 2 :=
  claim_C10 sampleCfg 7 freshState [] { name := "throwing_tool", args := [] }
    throwingTool "boom" rfl (by decide) (by decide) rfl rfl rfl

/-- C5 counterexample: after one tool failure (`count = 1`), a model response
naming `attempt_completion` makes the run return `true` with the counter still
1, not 0 — the loop intercepts the completion tool before any reset. -/
theorem claim_C5_counterexample :
    (processFunctionCallSequence sampleCfg 7 completionScript freshState [] failCall).1 = true
    ∧ (processFunctionCallSequence sampleCfg 7 completionScript freshState []
        failCall).2.1.consecutiveMistakeCount = 1
    ∧ ¬ (processFunctionCallSequence sampleCfg 7 completionScript freshState []
        failCall).2.1.consecutiveMistakeCount = 0 := by
  refine ⟨by decide, by decide, by decide⟩

/-- C5 amended: the reset on completion lives in `executeTool` — a successful
direct execution of `attempt_completion` returns with the counter set to 0 —
but `processFunctionCallSequence` returns on a completion-naming response
before ever calling `executeTool`, leaving the engine state (and so the
counter) unchanged. -/
theorem claim_C5_amended :
    (∀ (cfg : ToolExecConfig) (count : Nat) (params : ToolParams) (tool : FunctionTool)
        (result : ToolResult),
        getToolByName cfg.tools "attempt_completion" = some tool →
        approvalDenied cfg "attempt_completion" params = false →
        tool.execute params = .ok result →
        execCompletedThrow cfg "attempt_completion" params result = none →
        executeTool cfg count "attempt_completion" params =
          { result := result, count := 0, ranAction := true })
    ∧ (∀ (cfg : ToolExecConfig) (now : Nat) (oracle : List ModelResponse) (st : EngState)
        (contents : List GContent) (fc : FunctionCall),
        fc.name = "attempt_completion" →
        processFunctionCallSequence cfg now oracle st contents fc = (true, st, contents)) := by
  constructor
  · intro cfg count params tool result hfind hdeny hok hcb
    unfold executeTool
    rw [hfind]
    simp [hdeny, hok, hcb]
  · intro cfg now oracle st contents fc hname
    have hstep : stepBeforeModelCall cfg now st contents fc = .stop true := by
      unfold stepBeforeModelCall
      by_cases ha : st.aborted = true
      · rw [if_pos ha]
      · rw [if_neg ha]
        by_cases hb : maxConsecutiveMistakes ≤ st.consecutiveMistakeCount
        · rw [if_pos hb]
        · rw [if_neg hb, if_pos hname]
    unfold processFunctionCallSequence
    rw [hstep]

/-- C5 amended witness: the completion tool at concrete inputs. -/
theorem claim_C5_amended_witness :
    executeTool sampleCfg 2 "attempt_completion" [] =
      { result := { content := "done", error := none }, count := 0, ranAction := true }
    ∧ processFunctionCallSequence sampleCfg 7 [] budgetState []
        { name := "attempt_completion", args := [] } = (true, budgetState, []) :=
  ⟨claim_C5_amended.1 sampleCfg 2 [] completionTool { content := "done", error := none }
      rfl rfl rfl rfl,
   claim_C5_amended.2 sampleCfg 7 [] budgetState [] { name := "attempt_completion", args := [] }
      rfl⟩

/-- C1 counterexample: in the three-consecutive-failure run the ghost call log
is `[1, 2, 3]` — the third model request is issued at a moment when
`consecutiveMistakeCount` already equals `maxConsecutiveMistakes` (right after
the third failure), so a further Model Gateway request is made after the third
failure, contradicting the claim that none is. -/
theorem claim_C1_counterexample :
    ¬ (∀ c ∈ (processFunctionCallSequence sampleCfg 7 failScript freshState []
          failCall).2.1.callLog, c < maxConsecutiveMistakes)
    ∧ (processFunctionCallSequence sampleCfg 7 failScript freshState []
        failCall).2.1.callLog = [1, 2, 3]
    ∧ (processFunctionCallSequence sampleCfg 7 failScript freshState [] failCall).1 = true := by
  refine ⟨by decide, by decide, by decide⟩

/-- C1 amended: once the mistake counter has reached the budget at iteration
entry, the engine stops immediately — returning `true` with state and request
contents untouched, issuing no tool execution and no model request; the
iteration that records the third failure, however, still issues one more model
request (call log `[1, 2, 3]`) before the next entry stops the run. -/
theorem claim_C1_amended :
    (∀ (cfg : ToolExecConfig) (now : Nat) (oracle : List ModelResponse) (st : EngState)
        (contents : List GContent) (fc : FunctionCall),
        maxConsecutiveMistakes ≤ st.consecutiveMistakeCount →
        processFunctionCallSequence cfg now oracle st contents fc = (true, st, contents))
    ∧ (processFunctionCallSequence sampleCfg 7 failScript freshState []
        failCall).2.1.callLog = [1, 2, 3]
    ∧ (processFunctionCallSequence sampleCfg 7 failScript freshState [] failCall).1 = true := by
  refine ⟨?_, by decide, by decide⟩
  intro cfg now oracle st contents fc hbudget
  have hstep : stepBeforeModelCall cfg now st contents fc = .stop true := by
    unfold stepBeforeModelCall
    by_cases ha : st.aborted = true
    · rw [if_pos ha]
    · rw [if_neg ha, if_pos hbudget]
  unfold processFunctionCallSequence
  rw [hstep]

/-- C1 amended witness: a budget-exhausted state stops immediately. -/
theorem claim_C1_amended_witness :
    processFunctionCallSequence sampleCfg 7 failScript budgetState [] failCall =
      (true, budgetState, []) :=
  claim_C1_amended.1 sampleCfg 7 failScript budgetState [] failCall (by decide)

/-- C4 counterexample: in `executeToolsSequentially` a failing tool execution
appends a plain-text user turn (not a function-response turn) and the method
returns `false` without invoking the response generator (the ghost call log
stays empty), so the loop terminates instead of requesting the next model
step. -/
theorem claim_C4_counterexample :
    (executeToolsSequentially sampleCfg 7 seqScript freshState failCallMessage).1 = false
    ∧ (executeToolsSequentially sampleCfg 7 seqScript freshState failCallMessage).2.callLog = []
    ∧ (executeToolsSequentially sampleCfg 7 seqScript freshState
        failCallMessage).2.consecutiveMistakeCount = 1
    ∧ (executeToolsSequentially sampleCfg 7 seqScript freshState
        failCallMessage).2.history.messages = [toolFailedTurn "read_file" "not found" 7] := by
  refine ⟨by decide, by decide, by decide, by decide⟩

/-- C4 amended: in `processFunctionCallSequence`, a tool execution returning an
error result leaves the iteration about to issue the next model request with
the counter at 1 (from 0), the request logged, and the function-response turn
carrying the error as the last stored message; in `executeToolsSequentially`,
by contrast, the error is recorded as a plain-text user turn and the method
returns `false` without calling the response generator. -/
theorem claim_C4_amended :
    (∀ (cfg : ToolExecConfig) (now : Nat) (st : EngState) (contents : List GContent)
        (fc : FunctionCall) (c e : String) (ra : Bool),
        st.aborted = false →
        st.consecutiveMistakeCount = 0 →
        fc.name ≠ "attempt_completion" →
        executeTool cfg 0 fc.name fc.args =
          { result := { content := c, error := some e }, count := 0, ranAction := ra } →
        ∃ st1 contents1,
          stepBeforeModelCall cfg now st contents fc = .call st1 contents1
          ∧ st1.consecutiveMistakeCount = 1
          ∧ st1.callLog = st.callLog ++ [1]
          ∧ st1.history.messages.getLast? =
              some (functionResponseTurn fc.name { content := c, error := some e } now))
    ∧ (∀ (cfg : ToolExecConfig) (now : Nat) (oracle : List ChatMessage) (st : EngState)
        (role : String) (items : List ChatContent) (ts : Option Nat)
        (fcName : String) (fcArgs : ToolParams) (err : String),
        st.aborted = false →
        st.consecutiveMistakeCount < maxConsecutiveMistakes →
        items.find? ChatContent.isFunctionCallBlock = some (.function_call fcName fcArgs) →
        fcName ≠ "" →
        fcName ≠ "attempt_completion" →
        (executeTool cfg st.consecutiveMistakeCount fcName fcArgs).result.error = some err →
        executeToolsSequentially cfg now oracle st
            { role := role, content := .blocks items, ts := ts } =
          (false,
           { st with
              consecutiveMistakeCount :=
                (executeTool cfg st.consecutiveMistakeCount fcName fcArgs).count + 1
              history := st.history.addMessage (toolFailedTurn fcName err now) now })) := by
  constructor
  · intro cfg now st contents fc c e ra habort hcount hname hexec
    unfold stepBeforeModelCall
    rw [if_neg (by simp [habort]), if_neg (by rw [hcount]; decide), if_neg hname, hcount]
    refine ⟨_, _, rfl, ?_, ?_, ?_⟩
    · simp [hexec]
    · simp [hexec]
    · simp only [hexec]
      rw [addMessage_getLast]
      unfold functionResponseTurn
      rw [tsFilled_some_now]
  · intro cfg now oracle st role items ts fcName fcArgs err habort hbudget hfindBlock
      hnempty hnac herr
    unfold executeToolsSequentially
    rw [if_neg (by simp [habort]), if_neg (by omega)]
    simp only [hfindBlock]
    rw [if_neg hnempty, if_neg hnac]
    simp only [herr]

/-- C4 amended witness: the failing tool at concrete inputs, on both loop
implementations. -/
theorem claim_C4_amended_witness :
    (∃ st1 contents1,
        stepBeforeModelCall sampleCfg 7 freshState [] failCall = .call st1 contents1
        ∧ st1.consecutiveMistakeCount = 1
        ∧ st1.callLog = freshState.callLog ++ [1]
        ∧ st1.history.messages.getLast? =
            some (functionResponseTurn failCall.name
              { content := "", error := some "not found" } 7))
    ∧ executeToolsSequentially sampleCfg 7 seqScript freshState failCallMessage =
        (false,
         { freshState with
            consecutiveMistakeCount :=
              (executeTool sampleCfg freshState.consecutiveMistakeCount "read_file"
                [("path", "x.json")]).count + 1
            history := freshState.history.addMessage
              (toolFailedTurn "read_file" "not found" 7) 7 }) :=
  ⟨claim_C4_amended.1 sampleCfg 7 freshState [] failCall "" "not found" true
      rfl rfl (by decide) rfl,
   claim_C4_amended.2 sampleCfg 7 seqScript freshState "assistant"
      [.function_call "read_file" [("path", "x.json")]] (some 1)
      "read_file" [("path", "x.json")] "not found"
      rfl (by decide) rfl (by decide) (by decide) rfl⟩
